import Mathlib

/-!
Verification of the Book Store Management API (src/api.js together with
src/validators.js; src/unnamed/part_000 is the earlier minimal server that the
later variant supersedes).

The embedding models:
  - the Joi body schema `bookSchema` and the `validate` middleware
    (validators.js, lines 6-28), run with abortEarly:false and
    stripUnknown:true;
  - the `validateId` middleware (validators.js, lines 31-36), whose check is
    mongoose.Types.ObjectId.isValid, i.e. for a string input the bson
    ObjectId 24-character hex test /^[0-9a-fA-F]{24}$/;
  - the Mongoose model `BookStore` (api.js, lines 53-64) with its schema-level
    constraints (required, trim, min 1) and the store operations used by the
    routes (find, findById, create, findByIdAndUpdate with runValidators,
    findByIdAndDelete);
  - the five /api/bookstores routes of api.js plus the multer-based cover
    upload route (api.js, lines 70-83 and 267-278).

Request bodies are JSON objects produced by express.json(); they are modelled
as association lists from field name to a JSON value.  JavaScript numbers
that hold an integral value are modelled as Int; numbers with a fractional
part are collapsed to one constructor (`nonIntNum`) because both Joi rules
that can see them only test integrality; null, booleans, arrays and nested
objects are collapsed to `other` because the Title/Author/Pages rules treat
all of them alike (string.base / number.base failures).  Joi's convert mode
for numeric strings is modelled for integral strings via String.toInt?;
fractional or padded numeric strings fall into the number.base branch, a
divergence none of the verified claims depends on.
-/

/-- A JSON value as it can occur in a parsed request body field. -/
inductive JsVal where
  | str (s : String)
  | int (n : Int)
  | nonIntNum
  | other
  deriving DecidableEq

/-- A parsed JSON request body: field name to value.  JSON.parse keeps the
last binding of a duplicated key, so keys are unique in practice; lookup is
by the first (hence only) binding. -/
abbrev Body : Type := List (String × JsVal)

/-- Field access on a parsed body. -/
def lookupField (body : Body) (k : String) : Option JsVal :=
  (List.find? (fun p => p.1 == k) body).map Prod.snd

/-- JavaScript String.prototype.trim as used by Joi .trim(): strip whitespace
from both ends (the JS whitespace class is modelled by Char.isWhitespace). -/
def dropWs : List Char → List Char
  | [] => []
  | c :: t => if c.isWhitespace then dropWs t else c :: t

/-- Strip whitespace from both ends of a character list. -/
def trimChars (l : List Char) : List Char :=
  (dropWs (dropWs l).reverse).reverse

/-- String form of trimChars. -/
def jsTrim (s : String) : String := String.mk (trimChars s.data)

/-- One entry of error.details as produced by validators.js line 22:
a human-readable message and the offending field path. -/
structure JoiError where
  message : String
  path : List String
  deriving DecidableEq

/-- Joi any.required message. -/
def joiRequiredMsg (k : String) : String := "\"" ++ k ++ "\" is required"

/-- Joi string.base message. -/
def joiStringBaseMsg (k : String) : String := "\"" ++ k ++ "\" must be a string"

/-- Joi string.empty message. -/
def joiEmptyMsg (k : String) : String := "\"" ++ k ++ "\" is not allowed to be empty"

/-- Joi number.base message for Pages. -/
def joiNumberBaseMsg : String := "\"Pages\" must be a number"

/-- Joi number.integer message for Pages. -/
def joiIntegerMsg : String := "\"Pages\" must be an integer"

/-- Joi number.min message for Pages. -/
def joiMinMsg : String := "\"Pages\" must be greater than or equal to 1"

/-- Joi.string().trim().min(1).required() at key k (validators.js lines 7-8):
returns the error entries for the key together with the converted (trimmed)
value when the rule passes. -/
def joiString (body : Body) (k : String) : List JoiError × Option String :=
  match lookupField body k with
  | none => ([⟨joiRequiredMsg k, [k]⟩], none)
  | some (JsVal.str s) =>
      if jsTrim s = "" then ([⟨joiEmptyMsg k, [k]⟩], none)
      else ([], some (jsTrim s))
  | some _ => ([⟨joiStringBaseMsg k, [k]⟩], none)

/-- Joi.number().integer().min(1).required() at key Pages (validators.js
line 9). -/
def joiPages (body : Body) : List JoiError × Option Int :=
  match lookupField body "Pages" with
  | none => ([⟨joiRequiredMsg "Pages", ["Pages"]⟩], none)
  | some (JsVal.int n) =>
      if 1 ≤ n then ([], some n)
      else ([⟨joiMinMsg, ["Pages"]⟩], none)
  | some (JsVal.str s) =>
      match s.toInt? with
      | some n =>
          if 1 ≤ n then ([], some n)
          else ([⟨joiMinMsg, ["Pages"]⟩], none)
      | none => ([⟨joiNumberBaseMsg, ["Pages"]⟩], none)
  | some JsVal.nonIntNum => ([⟨joiIntegerMsg, ["Pages"]⟩], none)
  | some JsVal.other => ([⟨joiNumberBaseMsg, ["Pages"]⟩], none)

/-- The sanitized value produced by bookSchema.validate on success: exactly
the three schema fields, converted. -/
structure CleanBody where
  Title : String
  Author : String
  Pages : Int
  deriving DecidableEq

/-- schema.validate(req.body, abortEarly:false, stripUnknown:true)
(validators.js lines 15-18): every key's rule runs, the error entries are
collected in schema order, and on success the value holds exactly the schema
keys. -/
def joiValidate (body : Body) : Except (List JoiError) CleanBody :=
  match (joiString body "Title").2, (joiString body "Author").2,
        (joiPages body).2 with
  | some t, some a, some p => Except.ok ⟨t, a, p⟩
  | _, _, _ =>
      Except.error
        ((joiString body "Title").1 ++ (joiString body "Author").1 ++
          (joiPages body).1)

/-- The sanitized value written back to req.body at validators.js line 25,
as a JSON object: exactly the schema fields, unknown keys stripped. -/
def sanitizedBody (c : CleanBody) : Body :=
  [("Title", JsVal.str c.Title), ("Author", JsVal.str c.Author),
   ("Pages", JsVal.int c.Pages)]

/-- The character class of the bson ObjectId hex regex [0-9a-fA-F]. -/
def hexClass : List Char :=
  String.data "0123456789abcdef" ++ String.data "ABCDEF"

/-- mongoose.Types.ObjectId.isValid on a string (validators.js line 32):
the bson test that the string is exactly 24 characters from
/^[0-9a-fA-F]{24}$/.  (With the bson generation that the later variant runs
against, string inputs are valid exactly in this case; req.params.id is
always a string.) -/
def objectIdIsValid (s : String) : Bool :=
  (s.length == 24) && List.all s.data (fun c => List.elem c hexClass)

/-- A stored BookStore document (api.js lines 53-64).  Timestamps are not
modelled; CoverUrl defaults to null (none). -/
structure Book where
  _id : String
  Title : String
  Author : String
  Pages : Int
  CoverUrl : Option String
  deriving DecidableEq

/-- The bookstores collection. -/
abbrev Store : Type := List Book

/-- Mongoose schema validation for the BookStore model (api.js lines 55-57):
setters first (trim on Title and Author), then required (fails on the empty
string) and min 1 on Pages.  This is the store-level second line of defense
run by create and by findByIdAndUpdate with runValidators:true. -/
def mongooseValid (t a : String) (p : Int) : Bool :=
  (!(jsTrim t == "")) && (!(jsTrim a == "")) && decide (1 ≤ p)

/-- BookStore.findById: first (unique) document whose _id matches. -/
def findById (db : Store) (id : String) : Option Book :=
  List.find? (fun b => b._id == id) db

/-- Outcome of findByIdAndUpdate with runValidators:true. -/
inductive UpdResult where
  | validationFailed
  | notFound
  | updated (b : Book)
  deriving DecidableEq

/-- BookStore.findByIdAndUpdate(id, body, new:true, runValidators:true)
(api.js line 206): update validators run on the update document before it is
applied (their failure rejects even when no document matches); on a match the
mutable fields are overwritten through the schema setters and the updated
document is returned. -/
def findByIdAndUpdate (db : Store) (id : String) (c : CleanBody) :
    UpdResult × Store :=
  if mongooseValid c.Title c.Author c.Pages then
    match List.find? (fun b => b._id == id) db with
    | some b =>
        let b2 : Book := ⟨b._id, jsTrim c.Title, jsTrim c.Author, c.Pages, b.CoverUrl⟩
        (UpdResult.updated b2,
         List.map (fun x => if x._id == id then b2 else x) db)
    | none => (UpdResult.notFound, db)
  else (UpdResult.validationFailed, db)

/-- Remove the first document whose _id matches. -/
def removeFirst : Store → String → Store
  | [], _ => []
  | b :: rest, id => if b._id == id then rest else b :: removeFirst rest id

/-- BookStore.findByIdAndDelete (api.js line 232): returns the deleted
document, or null when nothing matched. -/
def findByIdAndDelete (db : Store) (id : String) : Option Book × Store :=
  match List.find? (fun b => b._id == id) db with
  | some b => (some b, removeFirst db id)
  | none => (none, db)

/-- An HTTP response as the api.js handlers build them: a JSON document
(res.json(doc)), a message object, or a message object with a details array. -/
inductive Resp where
  | book (status : Nat) (b : Book)
  | msg (status : Nat) (message : String)
  | err (status : Nat) (message : String) (details : List JoiError)
  deriving DecidableEq

/-- GET /api/bookstores/:id (api.js lines 149-157), behind validateId. -/
def getByIdRoute (db : Store) (id : String) : Resp :=
  if objectIdIsValid id then
    match findById db id with
    | some b => Resp.book 200 b
    | none => Resp.msg 404 "NotFound"
  else Resp.msg 400 "Invalid id"

/-- POST /api/bookstores/add (api.js lines 174-181), behind
validate(bookSchema).  fid is the ObjectId that MongoDB generates for the
insert; BookStore.create runs the schema setters and validators. -/
def addRoute (db : Store) (fid : String) (body : Body) : Resp × Store :=
  match joiValidate body with
  | Except.error ds => (Resp.err 400 "ValidationError" ds, db)
  | Except.ok c =>
      if mongooseValid c.Title c.Author c.Pages then
        let b : Book := ⟨fid, jsTrim c.Title, jsTrim c.Author, c.Pages, none⟩
        (Resp.book 201 b, db ++ [b])
      else (Resp.msg 500 "ServerError", db)

/-- PUT /api/bookstores/update/:id (api.js lines 204-212), behind validateId
then validate(bookSchema); a rejected update promise (runValidators failure)
is caught and mapped to the 500 ServerError branch. -/
def updateRoute (db : Store) (id : String) (body : Body) : Resp × Store :=
  if objectIdIsValid id then
    match joiValidate body with
    | Except.error ds => (Resp.err 400 "ValidationError" ds, db)
    | Except.ok c =>
        match findByIdAndUpdate db id c with
        | (UpdResult.validationFailed, db2) => (Resp.msg 500 "ServerError", db2)
        | (UpdResult.notFound, db2) => (Resp.msg 404 "NotFound", db2)
        | (UpdResult.updated b, db2) => (Resp.book 200 b, db2)
  else (Resp.msg 400 "Invalid id", db)

/-- DELETE /api/bookstores/delete/:id (api.js lines 230-238), behind
validateId. -/
def deleteRoute (db : Store) (id : String) : Resp × Store :=
  if objectIdIsValid id then
    match findByIdAndDelete db id with
    | (some _, db2) => (Resp.msg 200 "Book Store deleted.", db2)
    | (none, db2) => (Resp.msg 404 "NotFound", db2)
  else (Resp.msg 400 "Invalid id", db)

/-- A multipart upload as multer sees it. -/
structure UploadFile where
  mimetype : String
  size : Nat
  originalname : String
  deriving DecidableEq

/-- The parts of the request the cover handler reads besides the file. -/
structure CoverReq where
  file : Option UploadFile
  protocol : String
  host : String
  deriving DecidableEq

/-- The accepted image content types (api.js line 78). -/
def allowedMimes : List String :=
  ["image/png", "image/jpeg", "image/jpg", "image/webp"]

/-- The multer file size ceiling (api.js line 83): 2 MiB. -/
def sizeLimit : Nat := 2 * 1024 * 1024

/-- The public URL built for an uploaded file (api.js line 271). -/
def coverUrlFor (req : CoverReq) (fname : String) : String :=
  req.protocol ++ "://" ++ req.host ++ "/uploads/" ++ fname

/-- BookStore.findByIdAndUpdate(id, CoverUrl:url, new:true) as the cover
handler calls it (api.js line 272; no runValidators here). -/
def findByIdAndUpdateCover (db : Store) (id : String) (url : String) :
    Option Book × Store :=
  match List.find? (fun b => b._id == id) db with
  | some b =>
      let b2 : Book := ⟨b._id, b.Title, b.Author, b.Pages, some url⟩
      (some b2, List.map (fun x => if x._id == id then b2 else x) db)
  | none => (none, db)

/-- POST /api/bookstores/:id/cover (api.js lines 267-278).  Route order:
validateId, then upload.single which streams the multipart body — the disk
write by multer.diskStorage (api.js lines 70-77) happens during this
middleware, before the handler runs; fname is the generated
time-plus-random file name.  A fileFilter or size-limit error aborts before
the handler (the file is not kept) and falls to the express default error
handler (status 500).  The result is the response, the store, and the list
of files in the uploads directory. -/
def coverRoute (db : Store) (fs : List String) (id : String) (req : CoverReq)
    (fname : String) : Resp × Store × List String :=
  if objectIdIsValid id then
    match req.file with
    | none => (Resp.msg 400 "File is required (field name: file)", db, fs)
    | some f =>
        if List.elem f.mimetype allowedMimes then
          if f.size ≤ sizeLimit then
            let fs2 := fs ++ [fname]
            match findByIdAndUpdateCover db id (coverUrlFor req fname) with
            | (some b, db2) => (Resp.book 200 b, db2, fs2)
            | (none, db2) => (Resp.msg 404 "NotFound", db2, fs2)
          else (Resp.msg 500 "File too large", db, fs)
        else
          (Resp.msg 500 "Only image files are allowed (png, jpg, jpeg, webp).",
           db, fs)
  else (Resp.msg 400 "Invalid id", db, fs)

/-- The record-level invariant promised by the spec data model. -/
def bookOk (b : Book) : Prop :=
  jsTrim b.Title = b.Title ∧ b.Title ≠ "" ∧
  jsTrim b.Author = b.Author ∧ b.Author ≠ "" ∧ 1 ≤ b.Pages

/-- Every stored record satisfies the data-model constraints. -/
def storeOk (db : Store) : Prop := ∀ b ∈ db, bookOk b

/-- The spec wording of the identifier format: 24 characters, each a
hexadecimal digit (a digit, or a letter between a and f in either case). -/
abbrev isHexDigitSpec (c : Char) : Prop :=
  (Char.toNat '0' ≤ c.toNat ∧ c.toNat ≤ Char.toNat '9') ∨
  (Char.toNat 'a' ≤ c.toNat ∧ c.toNat ≤ Char.toNat 'f') ∨
  (Char.toNat 'A' ≤ c.toNat ∧ c.toNat ≤ Char.toNat 'F')

/-- Modelled from the spec: the 24-character hexadecimal object-identifier
format named in section 4.2. -/
def hex24Spec (s : String) : Prop :=
  s.length = 24 ∧ ∀ c ∈ s.data, isHexDigitSpec c

/-- The details list a failing validation reports: the errors of the three
schema keys, collected in schema order in a single pass. -/
def joiErrorsOf (body : Body) : List JoiError :=
  (joiString body "Title").1 ++ (joiString body "Author").1 ++
    (joiPages body).1

/-- dropWs yields nothing or a list whose head is not whitespace. -/
theorem dropWs_shape (l : List Char) :
    dropWs l = [] ∨ ∃ a t, dropWs l = a :: t ∧ a.isWhitespace = false := by
  induction l with
  | nil => exact Or.inl rfl
  | cons c t ih =>
      by_cases h : c.isWhitespace
      · simpa [dropWs, h] using ih
      · exact Or.inr ⟨c, t, by simp [dropWs, h], by simp [h]⟩

/-- dropWs keeps a list whose head is not whitespace. -/
theorem dropWs_fix (a : Char) (t : List Char) (h : a.isWhitespace = false) :
    dropWs (a :: t) = a :: t := by
  simp [dropWs, h]

/-- dropWs over an append. -/
theorem dropWs_append (xs ys : List Char) :
    dropWs (xs ++ ys) =
      if xs.all (fun c => c.isWhitespace) then dropWs ys else dropWs xs ++ ys := by
  induction xs with
  | nil => simp
  | cons c t ih =>
      by_cases h : c.isWhitespace
      · have hc : dropWs (c :: (t ++ ys)) = dropWs (t ++ ys) := by simp [dropWs, h]
        have hd : dropWs (c :: t) = dropWs t := by simp [dropWs, h]
        rw [List.cons_append, hc, ih, List.all_cons, h, Bool.true_and, hd]
      · simp [dropWs, h]

/-- Trimming is idempotent. -/
theorem trimChars_idem (l : List Char) : trimChars (trimChars l) = trimChars l := by
  rcases dropWs_shape l with h0 | ⟨a, t, h0, ha⟩
  · have h1 : trimChars l = [] := by simp [trimChars, h0, dropWs]
    rw [h1]
    simp [trimChars, dropWs]
  · have hR : ∃ R0, dropWs (a :: t).reverse = R0 ++ [a] := by
      rw [List.reverse_cons, dropWs_append]
      split
      · exact ⟨[], dropWs_fix a [] ha⟩
      · exact ⟨dropWs t.reverse, rfl⟩
    obtain ⟨R0, hR⟩ := hR
    have h1 : trimChars l = a :: R0.reverse := by
      rw [trimChars, h0, hR]
      simp
    have h2 : dropWs (R0 ++ [a]) = R0 ++ [a] := by
      rcases dropWs_shape (a :: t).reverse with h3 | ⟨b, u, h3, hb⟩
      · rw [hR] at h3
        exact absurd h3 (by simp)
      · rw [hR] at h3
        rw [h3]
        exact dropWs_fix b u hb
    rw [h1, trimChars, dropWs_fix a _ ha, List.reverse_cons, List.reverse_reverse,
        h2, ← h1]
    simp [h1]

/-- String form of idempotence. -/
theorem jsTrim_idem (s : String) : jsTrim (jsTrim s) = jsTrim s := by
  show String.mk (trimChars (trimChars s.data)) = String.mk (trimChars s.data)
  rw [trimChars_idem]

/-- A Joi message that quotes the field name is never empty. -/
theorem quoted_ne_empty (k tail : String) : "\"" ++ k ++ tail ≠ "" := by
  intro h
  have hd : ('"' :: (k.data ++ tail.data)) = ([] : List Char) :=
    congrArg String.data h
  exact List.noConfusion hd

/-- A string field that passed its rule is trimmed and non-empty. -/
theorem joiString_ok (body : Body) (k t : String)
    (h : (joiString body k).2 = some t) : jsTrim t = t ∧ t ≠ "" := by
  unfold joiString at h
  split at h
  · exact absurd h (by simp)
  · rename_i s heq
    split at h
    · exact absurd h (by simp)
    · rename_i hne
      simp only [Option.some.injEq] at h
      subst h
      exact ⟨jsTrim_idem s, hne⟩
  · exact absurd h (by simp)

/-- Every error a string rule emits points at its field and carries a
non-empty message. -/
theorem joiString_errs (body : Body) (k : String) :
    ∀ e ∈ (joiString body k).1, e.path = [k] ∧ e.message ≠ "" := by
  unfold joiString
  split
  · intro e he
    simp only [List.mem_singleton] at he
    subst he
    exact ⟨rfl, quoted_ne_empty k "\" is required"⟩
  · split
    · intro e he
      simp only [List.mem_singleton] at he
      subst he
      exact ⟨rfl, quoted_ne_empty k "\" is not allowed to be empty"⟩
    · intro e he
      exact absurd he (by simp)
  · intro e he
    simp only [List.mem_singleton] at he
    subst he
    exact ⟨rfl, quoted_ne_empty k "\" must be a string"⟩

/-- A Pages value that passed its rule is at least 1. -/
theorem joiPages_ok (body : Body) (n : Int)
    (h : (joiPages body).2 = some n) : 1 ≤ n := by
  unfold joiPages at h
  split at h
  · exact absurd h (by simp)
  · rename_i m heq
    split at h
    · rename_i hm
      simp only [Option.some.injEq] at h
      subst h
      exact hm
    · exact absurd h (by simp)
  · rename_i s heq
    split at h
    · rename_i m hm
      split at h
      · rename_i h1
        simp only [Option.some.injEq] at h
        subst h
        exact h1
      · exact absurd h (by simp)
    · exact absurd h (by simp)
  · exact absurd h (by simp)
  · exact absurd h (by simp)

/-- Every error the Pages rule emits points at Pages with a non-empty
message. -/
theorem joiPages_errs (body : Body) :
    ∀ e ∈ (joiPages body).1, e.path = ["Pages"] ∧ e.message ≠ "" := by
  unfold joiPages
  split
  · intro e he
    simp only [List.mem_singleton] at he
    subst he
    exact ⟨rfl, by decide⟩
  · split <;> intro e he <;> simp only [List.mem_singleton] at he
    · exact absurd he (by simp)
    · subst he
      exact ⟨rfl, by decide⟩
  · split
    · split <;> intro e he <;> simp only [List.mem_singleton] at he
      · exact absurd he (by simp)
      · subst he
        exact ⟨rfl, by decide⟩
    · intro e he
      simp only [List.mem_singleton] at he
      subst he
      exact ⟨rfl, by decide⟩
  · intro e he
    simp only [List.mem_singleton] at he
    subst he
    exact ⟨rfl, by decide⟩
  · intro e he
    simp only [List.mem_singleton] at he
    subst he
    exact ⟨rfl, by decide⟩

/-- On success the sanitized value is exactly the three converted fields. -/
theorem joiValidate_ok_proj (body : Body) (c : CleanBody)
    (h : joiValidate body = Except.ok c) :
    (joiString body "Title").2 = some c.Title ∧
    (joiString body "Author").2 = some c.Author ∧
    (joiPages body).2 = some c.Pages := by
  unfold joiValidate at h
  split at h
  · rename_i t a p ht ha hp
    simp only [Except.ok.injEq] at h
    subst h
    exact ⟨ht, ha, hp⟩
  · exact absurd h (by simp)

/-- On failure the details are the three fields' errors collected in schema
order. -/
theorem joiValidate_error_shape (body : Body) (ds : List JoiError)
    (h : joiValidate body = Except.error ds) :
    ds = (joiString body "Title").1 ++ (joiString body "Author").1 ++
      (joiPages body).1 := by
  unfold joiValidate at h
  split at h
  · exact absurd h (by simp)
  · simp only [Except.error.injEq] at h
    exact h.symm

/-- A failing Pages rule forces the whole validation to fail with the
collected errors. -/
theorem joiValidate_error_of_pages (body : Body)
    (h : (joiPages body).2 = none) :
    joiValidate body =
      Except.error
        ((joiString body "Title").1 ++ (joiString body "Author").1 ++
          (joiPages body).1) := by
  unfold joiValidate
  split
  · rename_i t a p ht ha hp
    rw [h] at hp
    exact absurd hp (by simp)
  · rfl

/-- The sanitized fields of a successful validation satisfy all data-model
constraints. -/
theorem cleanBody_ok (body : Body) (c : CleanBody)
    (h : joiValidate body = Except.ok c) :
    jsTrim c.Title = c.Title ∧ c.Title ≠ "" ∧
    jsTrim c.Author = c.Author ∧ c.Author ≠ "" ∧ 1 ≤ c.Pages := by
  obtain ⟨ht, ha, hp⟩ := joiValidate_ok_proj body c h
  obtain ⟨h1, h2⟩ := joiString_ok body "Title" c.Title ht
  obtain ⟨h3, h4⟩ := joiString_ok body "Author" c.Author ha
  exact ⟨h1, h2, h3, h4, joiPages_ok body c.Pages hp⟩

/-- Joi-sanitized fields pass the Mongoose schema validators. -/
theorem mongooseValid_of_clean (t a : String) (p : Int)
    (h1 : jsTrim t = t) (h2 : t ≠ "") (h3 : jsTrim a = a) (h4 : a ≠ "")
    (h5 : 1 ≤ p) : mongooseValid t a p = true := by
  unfold mongooseValid
  rw [h1, h3]
  simp [h2, h4, h5]

/-- find? over an append when the first part has no match. -/
theorem find?_append_none {α : Type} (p : α → Bool) (l1 l2 : List α)
    (h : List.find? p l1 = none) :
    List.find? p (l1 ++ l2) = List.find? p l2 := by
  induction l1 with
  | nil => rfl
  | cons a t ih =>
      by_cases hp : p a
      · rw [List.find?_cons_of_pos _ hp] at h
        exact absurd h (by simp)
      · rw [List.find?_cons_of_neg _ (by simp [hp])] at h
        rw [List.cons_append, List.find?_cons_of_neg _ (by simp [hp])]
        exact ih h

/-- After removing the matching document from a store with unique ids, no
document with that id remains. -/
theorem find?_removeFirst_none (db : Store) (id : String)
    (h : (List.map (fun b => b._id) db).Nodup) :
    List.find? (fun b => b._id == id) (removeFirst db id) = none := by
  induction db with
  | nil => rfl
  | cons b rest ih =>
      rw [List.map_cons, List.nodup_cons] at h
      obtain ⟨hb, hrest⟩ := h
      by_cases hid : b._id == id
      · rw [show removeFirst (b :: rest) id = rest from by simp [removeFirst, hid]]
        rw [List.find?_eq_none]
        intro x hx
        simp only [beq_iff_eq] at hid ⊢
        intro hxid
        exact hb (by rw [hid, ← hxid]; exact List.mem_map_of_mem _ hx)
      · rw [show removeFirst (b :: rest) id = b :: removeFirst rest id from by
          simp [removeFirst, hid]]
        rw [List.find?_cons_of_neg _ (by simp [hid])]
        exact ih hrest

/-- Replacing the matched document by a constraint-satisfying one preserves
the store invariant. -/
theorem storeOk_map_update (db : Store) (id : String) (b2 : Book)
    (hdb : storeOk db) (hb : bookOk b2) :
    storeOk (List.map (fun x => if x._id == id then b2 else x) db) := by
  intro x hx
  rw [List.mem_map] at hx
  obtain ⟨y, hy, rfl⟩ := hx
  by_cases hid : y._id == id
  · simpa [hid] using hb
  · simpa [hid] using hdb y hy

/-- A character is in the regex class [0-9a-fA-F] exactly when it is a
hexadecimal digit in the spec sense. -/
theorem hexChar_iff (c : Char) :
    List.elem c hexClass = true ↔ isHexDigitSpec c := by
  constructor
  · intro h
    have hm : c ∈ hexClass := List.elem_iff.mp h
    have hall : ∀ x ∈ hexClass, isHexDigitSpec x := by decide
    exact hall c hm
  · intro h
    have hc : Char.ofNat c.toNat = c := Char.ofNat_toNat c
    obtain ⟨n, hn⟩ : ∃ n, c.toNat = n := ⟨c.toNat, rfl⟩
    rw [hn] at hc
    rcases h with ⟨h1, h2⟩ | ⟨h1, h2⟩ | ⟨h1, h2⟩ <;> rw [hn] at h1 h2
    · rw [show Char.toNat '0' = 48 from rfl] at h1
      rw [show Char.toNat '9' = 57 from rfl] at h2
      interval_cases n <;> rw [← hc] <;> decide
    · rw [show Char.toNat 'a' = 97 from rfl] at h1
      rw [show Char.toNat 'f' = 102 from rfl] at h2
      interval_cases n <;> rw [← hc] <;> decide
    · rw [show Char.toNat 'A' = 65 from rfl] at h1
      rw [show Char.toNat 'F' = 70 from rfl] at h2
      interval_cases n <;> rw [← hc] <;> decide

/-- Claim C5: the identifier validator accepts a string exactly when it is in
the 24-character hexadecimal object-identifier format; the check reads only
the string (it takes no store argument), so acceptance never depends on
whether a record with that identifier exists. -/
theorem objectId_check_iff_hex24 (s : String) :
    objectIdIsValid s = true ↔ hex24Spec s := by
  unfold objectIdIsValid hex24Spec
  rw [Bool.and_eq_true, beq_iff_eq, List.all_eq_true]
  constructor
  · rintro ⟨h1, h2⟩
    exact ⟨h1, fun c hc => (hexChar_iff c).1 (h2 c hc)⟩
  · rintro ⟨h1, h2⟩
    exact ⟨h1, fun c hc => (hexChar_iff c).2 (h2 c hc)⟩

/-- Claim C1: whenever the input validator accepts a body, the sanitized
value holds a trimmed non-empty Title, a trimmed non-empty Author and an
integer Pages of at least 1, and it consists of exactly those three fields,
every unrecognized field having been stripped; otherwise the validator
returns a validation failure (the error branch of the same total function),
never a record violating the constraints. -/
theorem joi_validate_sanitizes (body : Body) (c : CleanBody)
    (h : joiValidate body = Except.ok c) :
    jsTrim c.Title = c.Title ∧ c.Title ≠ "" ∧
    jsTrim c.Author = c.Author ∧ c.Author ≠ "" ∧
    1 ≤ c.Pages ∧
    List.map Prod.fst (sanitizedBody c) = ["Title", "Author", "Pages"] := by
  obtain ⟨h1, h2, h3, h4, h5⟩ := cleanBody_ok body c h
  exact ⟨h1, h2, h3, h4, h5, rfl⟩

/-- Witness for C1: a body with a padded title and an unrecognized field is
sanitized to exactly the three constrained fields. -/
theorem joi_validate_sanitizes_witness :
    jsTrim (CleanBody.mk "Dune" "Herbert" 412).Title =
      (CleanBody.mk "Dune" "Herbert" 412).Title ∧
    (CleanBody.mk "Dune" "Herbert" 412).Title ≠ "" ∧
    jsTrim (CleanBody.mk "Dune" "Herbert" 412).Author =
      (CleanBody.mk "Dune" "Herbert" 412).Author ∧
    (CleanBody.mk "Dune" "Herbert" 412).Author ≠ "" ∧
    1 ≤ (CleanBody.mk "Dune" "Herbert" 412).Pages ∧
    List.map Prod.fst (sanitizedBody (CleanBody.mk "Dune" "Herbert" 412)) =
      ["Title", "Author", "Pages"] :=
  joi_validate_sanitizes
    [("Title", JsVal.str " Dune "), ("Author", JsVal.str "Herbert"),
     ("Pages", JsVal.int 412), ("Publisher", JsVal.str "X")]
    (CleanBody.mk "Dune" "Herbert" 412) (by rfl)

/-- Claim C2: a well-formed id that matches no stored record makes the
get-by-id route answer 404 with message NotFound; the response is never a
success document, and the route is a total function (nothing is thrown
merely because nothing matched). -/
theorem getById_missing_is_404 (db : Store) (id : String)
    (h1 : objectIdIsValid id = true) (h2 : findById db id = none) :
    getByIdRoute db id = Resp.msg 404 "NotFound" ∧
    ∀ st b, getByIdRoute db id ≠ Resp.book st b := by
  unfold findById at h2
  have hmain : getByIdRoute db id = Resp.msg 404 "NotFound" := by
    simp [getByIdRoute, findById, h1, h2]
  exact ⟨hmain, fun st b => by rw [hmain]; simp⟩

/-- Witness for C2 at an empty store and a concrete well-formed id. -/
theorem getById_missing_is_404_witness :
    getByIdRoute [] "0123456789abcdef01234567" = Resp.msg 404 "NotFound" :=
  (getById_missing_is_404 [] "0123456789abcdef01234567" (by rfl) (by rfl)).1

/-- Claim C6: a malformed id makes the get, update and delete routes answer
400 with message Invalid id, with the store left unchanged; the response
does not depend on the store contents at all, because validateId
short-circuits before any store access. -/
theorem malformed_id_rejected (db : Store) (id : String) (body : Body)
    (h : objectIdIsValid id = false) :
    getByIdRoute db id = Resp.msg 400 "Invalid id" ∧
    updateRoute db id body = (Resp.msg 400 "Invalid id", db) ∧
    deleteRoute db id = (Resp.msg 400 "Invalid id", db) ∧
    (∀ db2 : Store, getByIdRoute db2 id = getByIdRoute db id) := by
  refine ⟨?_, ?_, ?_, ?_⟩ <;> simp [getByIdRoute, updateRoute, deleteRoute, h]

/-- Witness for C6 at the spec scenario id not-an-id. -/
theorem malformed_id_rejected_witness :
    getByIdRoute [] "not-an-id" = Resp.msg 400 "Invalid id" :=
  (malformed_id_rejected [] "not-an-id" [] (by rfl)).1

/-- A record built from Joi-sanitized fields through the Mongoose setters
satisfies the data-model constraints. -/
theorem bookOk_of_clean (c : CleanBody) (idv : String) (cov : Option String)
    (h1 : jsTrim c.Title = c.Title) (h2 : c.Title ≠ "")
    (h3 : jsTrim c.Author = c.Author) (h4 : c.Author ≠ "") (h5 : 1 ≤ c.Pages) :
    bookOk ⟨idv, jsTrim c.Title, jsTrim c.Author, c.Pages, cov⟩ := by
  refine ⟨jsTrim_idem c.Title, ?_, jsTrim_idem c.Author, ?_, h5⟩
  · rw [h1]
    exact h2
  · rw [h3]
    exact h4

/-- The update route preserves the store invariant and only ever answers 200
with a constraint-satisfying record. -/
theorem updateRoute_preserves (db : Store) (id : String) (body : Body)
    (hdb : storeOk db) :
    storeOk (updateRoute db id body).2 ∧
    ∀ b, (updateRoute db id body).1 = Resp.book 200 b → bookOk b := by
  by_cases hid : objectIdIsValid id = true
  · cases hv : joiValidate body with
    | error ds =>
        constructor
        · simpa [updateRoute, hid, hv] using hdb
        · intro b hb
          simp [updateRoute, hid, hv] at hb
    | ok c =>
        obtain ⟨h1, h2, h3, h4, h5⟩ := cleanBody_ok body c hv
        have hm := mongooseValid_of_clean c.Title c.Author c.Pages h1 h2 h3 h4 h5
        cases hf : List.find? (fun b => b._id == id) db with
        | none =>
            have hroute : updateRoute db id body = (Resp.msg 404 "NotFound", db) := by
              simp [updateRoute, hid, hv, findByIdAndUpdate, hm, hf]
            rw [hroute]
            refine ⟨hdb, ?_⟩
            intro b hb
            exact absurd hb (by simp)
        | some b0 =>
            have hbook : bookOk
                ⟨b0._id, jsTrim c.Title, jsTrim c.Author, c.Pages, b0.CoverUrl⟩ :=
              bookOk_of_clean c b0._id b0.CoverUrl h1 h2 h3 h4 h5
            have hroute : updateRoute db id body =
                (Resp.book 200
                   ⟨b0._id, jsTrim c.Title, jsTrim c.Author, c.Pages, b0.CoverUrl⟩,
                 List.map (fun x => if x._id == id then
                     ⟨b0._id, jsTrim c.Title, jsTrim c.Author, c.Pages, b0.CoverUrl⟩
                   else x) db) := by
              simp [updateRoute, hid, hv, findByIdAndUpdate, hm, hf]
            rw [hroute]
            constructor
            · exact storeOk_map_update db id _ hdb hbook
            · intro b hb
              simp only [Resp.book.injEq] at hb
              rw [← hb.2]
              exact hbook
  · have hid2 : objectIdIsValid id = false := by
      simpa using hid
    constructor
    · simpa [updateRoute, hid2] using hdb
    · intro b hb
      simp [updateRoute, hid2] at hb

/-- Claim C3: update applies the same field constraints as create — its body
goes through the same bookSchema gate, so the route preserves the store
invariant and any 200 response carries a constraint-satisfying record — and
the constraints are re-checked at the store write: findByIdAndUpdate runs
with runValidators, so a violating update document is rejected there with
the store untouched, independently of the request-body gate. -/
theorem update_revalidates_constraints (db : Store) (id : String) (body : Body)
    (hdb : storeOk db) :
    storeOk (updateRoute db id body).2 ∧
    (∀ b, (updateRoute db id body).1 = Resp.book 200 b → bookOk b) ∧
    (∀ db2 id2 c, mongooseValid c.Title c.Author c.Pages = false →
      findByIdAndUpdate db2 id2 c = (UpdResult.validationFailed, db2)) := by
  obtain ⟨hA, hB⟩ := updateRoute_preserves db id body hdb
  refine ⟨hA, hB, ?_⟩
  intro db2 id2 c hc
  simp [findByIdAndUpdate, hc]

/-- Witness for C3 at a concrete store satisfying the invariant. -/
theorem update_revalidates_constraints_witness :
    storeOk (updateRoute [Book.mk "0123456789abcdef01234567" "Dune" "Herbert" 412 none]
      "0123456789abcdef01234567"
      [("Title", JsVal.str "Dune Messiah"), ("Author", JsVal.str "Herbert"),
       ("Pages", JsVal.int 340)]).2 :=
  (update_revalidates_constraints
    [Book.mk "0123456789abcdef01234567" "Dune" "Herbert" 412 none]
    "0123456789abcdef01234567"
    [("Title", JsVal.str "Dune Messiah"), ("Author", JsVal.str "Herbert"),
     ("Pages", JsVal.int 340)]
    (by
      intro b hb
      simp only [List.mem_singleton] at hb
      subst hb
      exact ⟨by rfl, by decide, by rfl, by decide, by decide⟩)).1

/-- Claim C4: deleting a well-formed id that matches no stored record
answers 404 NotFound with the store unchanged — not a success confirmation
and not a server error — and for a store with unique ids a second delete of
the same id always answers 404. -/
theorem delete_missing_notFound (db : Store) (id : String)
    (h1 : objectIdIsValid id = true) :
    (findById db id = none →
      deleteRoute db id = (Resp.msg 404 "NotFound", db)) ∧
    ((List.map (fun b => b._id) db).Nodup →
      (deleteRoute (deleteRoute db id).2 id).1 = Resp.msg 404 "NotFound") := by
  constructor
  · intro h2
    unfold findById at h2
    simp [deleteRoute, findByIdAndDelete, h1, h2]
  · intro hnd
    cases hf : List.find? (fun b => b._id == id) db with
    | none =>
        have hone : deleteRoute db id = (Resp.msg 404 "NotFound", db) := by
          simp [deleteRoute, findByIdAndDelete, h1, hf]
        rw [hone]
        simp [deleteRoute, findByIdAndDelete, h1, hf]
    | some b =>
        have hone : (deleteRoute db id).2 = removeFirst db id := by
          simp [deleteRoute, findByIdAndDelete, h1, hf]
        rw [hone]
        have h3 := find?_removeFirst_none db id hnd
        simp [deleteRoute, findByIdAndDelete, h1, h3]

/-- Witness for C4: deleting the same id twice on a one-record store yields
NotFound on the second call. -/
theorem delete_missing_notFound_witness :
    (deleteRoute
      (deleteRoute [Book.mk "aaaaaaaaaaaaaaaaaaaaaaaa" "Dune" "Herbert" 412 none]
        "aaaaaaaaaaaaaaaaaaaaaaaa").2
      "aaaaaaaaaaaaaaaaaaaaaaaa").1 = Resp.msg 404 "NotFound" :=
  (delete_missing_notFound
    [Book.mk "aaaaaaaaaaaaaaaaaaaaaaaa" "Dune" "Herbert" 412 none]
    "aaaaaaaaaaaaaaaaaaaaaaaa" (by rfl)).2 (by simp)

/-- Claim C7: creating from a valid body answers 201 with the persisted
record itself — the generated id plus the sanitized submitted fields — and a
subsequent get-by-id with the generated id returns exactly that record. -/
theorem create_roundtrip (db : Store) (fid : String) (body : Body) (c : CleanBody)
    (h1 : joiValidate body = Except.ok c)
    (h2 : objectIdIsValid fid = true)
    (h3 : findById db fid = none) :
    addRoute db fid body =
      (Resp.book 201 ⟨fid, c.Title, c.Author, c.Pages, none⟩,
       db ++ [⟨fid, c.Title, c.Author, c.Pages, none⟩]) ∧
    getByIdRoute (db ++ [⟨fid, c.Title, c.Author, c.Pages, none⟩]) fid =
      Resp.book 200 ⟨fid, c.Title, c.Author, c.Pages, none⟩ := by
  obtain ⟨ht, hte, ha, hae, hp⟩ := cleanBody_ok body c h1
  have hm := mongooseValid_of_clean c.Title c.Author c.Pages ht hte ha hae hp
  unfold findById at h3
  have hfind : List.find? (fun b => b._id == fid)
      (db ++ [(⟨fid, c.Title, c.Author, c.Pages, none⟩ : Book)]) =
      some ⟨fid, c.Title, c.Author, c.Pages, none⟩ := by
    rw [find?_append_none _ db _ h3]
    simp [List.find?]
  constructor
  · simp [addRoute, h1, hm, ht, ha]
  · simp [getByIdRoute, findById, h2, hfind]

/-- Witness for C7: the Scenario A body persists with Title Dune and reads
back unchanged. -/
theorem create_roundtrip_witness :
    addRoute [] "abcdef0123456789abcdef01"
      [("Title", JsVal.str "Dune"), ("Author", JsVal.str "Herbert"),
       ("Pages", JsVal.int 412)] =
      (Resp.book 201 (Book.mk "abcdef0123456789abcdef01" "Dune" "Herbert" 412 none),
       [Book.mk "abcdef0123456789abcdef01" "Dune" "Herbert" 412 none]) :=
  (create_roundtrip [] "abcdef0123456789abcdef01"
    [("Title", JsVal.str "Dune"), ("Author", JsVal.str "Herbert"),
     ("Pages", JsVal.int 412)]
    (CleanBody.mk "Dune" "Herbert" 412) (by rfl) (by rfl) (by rfl)).1

/-- Each string rule either passes with no errors or fails with exactly one
error entry. -/
theorem joiString_shape (body : Body) (k : String) :
    (∃ t, joiString body k = ([], some t)) ∨
    (∃ e, joiString body k = ([e], none)) := by
  unfold joiString
  split
  · exact Or.inr ⟨_, rfl⟩
  · split
    · exact Or.inr ⟨_, rfl⟩
    · exact Or.inl ⟨_, rfl⟩
  · exact Or.inr ⟨_, rfl⟩

/-- The Pages rule either passes with no errors or fails with exactly one
error entry. -/
theorem joiPages_shape (body : Body) :
    (∃ n, joiPages body = ([], some n)) ∨
    (∃ e, joiPages body = ([e], none)) := by
  unfold joiPages
  split
  · exact Or.inr ⟨_, rfl⟩
  · split
    · exact Or.inl ⟨_, rfl⟩
    · exact Or.inr ⟨_, rfl⟩
  · split
    · split
      · exact Or.inl ⟨_, rfl⟩
      · exact Or.inr ⟨_, rfl⟩
    · exact Or.inr ⟨_, rfl⟩
  · exact Or.inr ⟨_, rfl⟩
  · exact Or.inr ⟨_, rfl⟩

/-- When every key's rule passes, validation succeeds with the converted
fields. -/
theorem joiValidate_ok_of_all (body : Body) (t a : String) (p : Int)
    (hT : (joiString body "Title").2 = some t)
    (hA : (joiString body "Author").2 = some a)
    (hP : (joiPages body).2 = some p) :
    joiValidate body = Except.ok ⟨t, a, p⟩ := by
  unfold joiValidate
  rw [hT, hA, hP]

/-- A failing validation always reports at least one error. -/
theorem joiValidate_error_ne_nil (body : Body) (ds : List JoiError)
    (h : joiValidate body = Except.error ds) : ds ≠ [] := by
  have hds := joiValidate_error_shape body ds h
  intro hnil
  rw [hnil] at hds
  have h4 := hds.symm
  simp only [List.append_eq_nil] at h4
  obtain ⟨⟨het, hea⟩, hep⟩ := h4
  rcases joiString_shape body "Title" with ⟨t, hT⟩ | ⟨e, hT⟩
  · rcases joiString_shape body "Author" with ⟨a, hA⟩ | ⟨e, hA⟩
    · rcases joiPages_shape body with ⟨p, hP⟩ | ⟨e, hP⟩
      · have hok := joiValidate_ok_of_all body t a p (by rw [hT]) (by rw [hA])
          (by rw [hP])
        rw [hok] at h
        exact absurd h (by simp)
      · rw [hP] at hep
        exact absurd hep (by simp)
    · rw [hA] at hea
      exact absurd hea (by simp)
  · rw [hT] at het
    exact absurd het (by simp)

/-- Claim C8: whenever a request body fails validation — in particular when
it violates more than one constraint — the validator reports the violations
of every field in one pass, as a structured enumerable list and never a
generic fault: the details are exactly the three keys' collected errors,
the list is non-empty, every entry carries a non-empty human-readable
message and the offending field path, no field's violation is dropped in
favour of another's, a body whose Pages is 0 gets an entry whose path
references Pages, a body missing Title gets an entry for Title, and the
update route surfaces the same list as a 400 ValidationError response. -/
theorem validation_reports_all (db : Store) (id : String) (body : Body)
    (ds : List JoiError)
    (hid : objectIdIsValid id = true)
    (herr : joiValidate body = Except.error ds) :
    ds = joiErrorsOf body ∧
    updateRoute db id body = (Resp.err 400 "ValidationError" ds, db) ∧
    ds ≠ [] ∧
    (∀ e ∈ ds, e.path ≠ [] ∧ e.message ≠ "") ∧
    (∀ e ∈ (joiString body "Title").1, e ∈ ds) ∧
    (∀ e ∈ (joiString body "Author").1, e ∈ ds) ∧
    (∀ e ∈ (joiPages body).1, e ∈ ds) ∧
    (lookupField body "Pages" = some (JsVal.int 0) →
      JoiError.mk joiMinMsg ["Pages"] ∈ ds) ∧
    (lookupField body "Title" = none →
      JoiError.mk (joiRequiredMsg "Title") ["Title"] ∈ ds) := by
  have hds : ds = joiErrorsOf body := joiValidate_error_shape body ds herr
  refine ⟨hds, ?_, joiValidate_error_ne_nil body ds herr, ?_, ?_, ?_, ?_, ?_, ?_⟩
  · simp [updateRoute, hid, herr]
  · intro e he
    rw [hds] at he
    unfold joiErrorsOf at he
    rw [List.mem_append] at he
    rcases he with he | he
    · rw [List.mem_append] at he
      rcases he with he | he
      · obtain ⟨hpath, hmsg⟩ := joiString_errs body "Title" e he
        exact ⟨by rw [hpath]; simp, hmsg⟩
      · obtain ⟨hpath, hmsg⟩ := joiString_errs body "Author" e he
        exact ⟨by rw [hpath]; simp, hmsg⟩
    · obtain ⟨hpath, hmsg⟩ := joiPages_errs body e he
      exact ⟨by rw [hpath]; simp, hmsg⟩
  · intro e he
    rw [hds]
    unfold joiErrorsOf
    rw [List.mem_append]
    left
    rw [List.mem_append]
    left
    exact he
  · intro e he
    rw [hds]
    unfold joiErrorsOf
    rw [List.mem_append]
    left
    rw [List.mem_append]
    right
    exact he
  · intro e he
    rw [hds]
    unfold joiErrorsOf
    rw [List.mem_append]
    right
    exact he
  · intro hp0
    have hpg : joiPages body = ([⟨joiMinMsg, ["Pages"]⟩], none) := by
      simp [joiPages, hp0]
    rw [hds]
    unfold joiErrorsOf
    rw [hpg]
    simp
  · intro hT
    have hTs : joiString body "Title" =
        ([⟨joiRequiredMsg "Title", ["Title"]⟩], none) := by
      simp [joiString, hT]
    rw [hds]
    unfold joiErrorsOf
    rw [hTs]
    simp

/-- Witness for C8 at the Scenario E body with Pages 0 (and Title and
Author missing, a body violating three constraints at once): the reported
details contain the Pages entry. -/
theorem validation_reports_all_witness :
    JoiError.mk joiMinMsg ["Pages"] ∈
      [JoiError.mk (joiRequiredMsg "Title") ["Title"],
       JoiError.mk (joiRequiredMsg "Author") ["Author"],
       JoiError.mk joiMinMsg ["Pages"]] :=
  (validation_reports_all [] "0123456789abcdef01234567"
    [("Pages", JsVal.int 0)]
    [JoiError.mk (joiRequiredMsg "Title") ["Title"],
     JoiError.mk (joiRequiredMsg "Author") ["Author"],
     JoiError.mk joiMinMsg ["Pages"]]
    (by rfl) (by rfl)).2.2.2.2.2.2.2.1 (by rfl)

/-- Claim C9: a cover upload that is rejected — no file supplied, content
type not an accepted image type, or payload over the 2 MiB ceiling — never
mutates the record store (CoverUrl and all other fields are unchanged) and
never produces a success document response. -/
theorem rejected_upload_no_mutation (db : Store) (fs : List String) (id : String)
    (req : CoverReq) (fname : String)
    (h : req.file = none ∨
      ∀ f, req.file = some f →
        (List.elem f.mimetype allowedMimes = false ∨ sizeLimit < f.size)) :
    (coverRoute db fs id req fname).2.1 = db ∧
    ∀ st b, (coverRoute db fs id req fname).1 ≠ Resp.book st b := by
  by_cases hid : objectIdIsValid id = true
  · cases hfile : req.file with
    | none =>
        constructor
        · simp [coverRoute, hid, hfile]
        · intro st b
          simp [coverRoute, hid, hfile]
    | some f =>
        rcases h with h | h
        · rw [hfile] at h
          exact absurd h (by simp)
        · rcases h f hfile with hmime | hsize
          · have hm4 : ¬ f.mimetype ∈ allowedMimes := fun hmem => by
              have hmem2 := List.elem_iff.mpr hmem
              rw [hmime] at hmem2
              exact Bool.noConfusion hmem2
            constructor
            · simp [coverRoute, hid, hfile, hm4]
            · intro st b
              simp [coverRoute, hid, hfile, hm4]
          · have hns : ¬ f.size ≤ sizeLimit := Nat.not_le.mpr hsize
            by_cases hm2 : f.mimetype ∈ allowedMimes
            · constructor
              · simp [coverRoute, hid, hfile, hm2, hns]
              · intro st b
                simp [coverRoute, hid, hfile, hm2, hns]
            · constructor
              · simp [coverRoute, hid, hfile, hm2]
              · intro st b
                simp [coverRoute, hid, hfile, hm2]
  · have hid2 : objectIdIsValid id = false := by simpa using hid
    constructor
    · simp [coverRoute, hid2]
    · intro st b
      simp [coverRoute, hid2]

/-- Witness for C9 at the Scenario D input: a 5 MB png upload leaves the
one-record store unchanged. -/
theorem rejected_upload_no_mutation_witness :
    (coverRoute [Book.mk "aaaaaaaaaaaaaaaaaaaaaaaa" "Dune" "Herbert" 412 none] []
      "aaaaaaaaaaaaaaaaaaaaaaaa"
      (CoverReq.mk (some (UploadFile.mk "image/png" (5 * 1024 * 1024) "big.png"))
        "http" "localhost:3000")
      "170000-42.png").2.1 =
      [Book.mk "aaaaaaaaaaaaaaaaaaaaaaaa" "Dune" "Herbert" 412 none] :=
  (rejected_upload_no_mutation
    [Book.mk "aaaaaaaaaaaaaaaaaaaaaaaa" "Dune" "Herbert" 412 none] []
    "aaaaaaaaaaaaaaaaaaaaaaaa"
    (CoverReq.mk (some (UploadFile.mk "image/png" (5 * 1024 * 1024) "big.png"))
      "http" "localhost:3000")
    "170000-42.png"
    (Or.inr (by
      intro f hf
      have hf2 : UploadFile.mk "image/png" (5 * 1024 * 1024) "big.png" = f :=
        Option.some.inj hf
      subst hf2
      right
      decide))).1

/-- Claim C10: an accepted upload whose well-formed id matches no record
answers 404 NotFound without touching the store, yet the uploads directory
has already gained the file — multer's disk storage persisted it during the
middleware, before the handler checked the record's existence — and no
record's CoverUrl references the orphaned file. -/
theorem upload_orphan_file (db : Store) (fs : List String) (id : String)
    (req : CoverReq) (f : UploadFile) (fname : String)
    (h1 : objectIdIsValid id = true)
    (h2 : req.file = some f)
    (h3 : List.elem f.mimetype allowedMimes = true)
    (h4 : f.size ≤ sizeLimit)
    (h5 : findById db id = none)
    (h6 : ∀ b ∈ db, b.CoverUrl ≠ some (coverUrlFor req fname)) :
    coverRoute db fs id req fname = (Resp.msg 404 "NotFound", db, fs ++ [fname]) ∧
    ∀ b ∈ (coverRoute db fs id req fname).2.1,
      b.CoverUrl ≠ some (coverUrlFor req fname) := by
  unfold findById at h5
  have h3m : f.mimetype ∈ allowedMimes := List.elem_iff.mp h3
  have hmain : coverRoute db fs id req fname =
      (Resp.msg 404 "NotFound", db, fs ++ [fname]) := by
    simp [coverRoute, h1, h2, h3m, h4, findByIdAndUpdateCover, h5]
  refine ⟨hmain, ?_⟩
  rw [hmain]
  exact h6

/-- Witness for C10: an accepted 1 KB png upload against an empty store
answers 404 while the uploads directory gains the generated file. -/
theorem upload_orphan_file_witness :
    coverRoute [] [] "ffffffffffffffffffffffff"
      (CoverReq.mk (some (UploadFile.mk "image/png" 1024 "cover.png")) "http"
        "localhost:3000") "170000-7.png" =
      (Resp.msg 404 "NotFound", [], ["170000-7.png"]) :=
  (upload_orphan_file [] [] "ffffffffffffffffffffffff"
    (CoverReq.mk (some (UploadFile.mk "image/png" 1024 "cover.png")) "http"
      "localhost:3000")
    (UploadFile.mk "image/png" 1024 "cover.png") "170000-7.png"
    (by rfl) (by rfl) (by rfl) (by decide) (by rfl) (by simp)).1
